import Mathlib

set_option linter.unusedVariables false

/-! Verification development for the chip-8-rs CHIP-8 interpreter.

Two interpreter variants live in the repository and both are embedded
here: `Chip8` (src/chip_8.rs), which communicates display mutations to
the renderer through a draw queue, and `App` (src/app.rs), which
interprets instructions directly against a pixel frame and realises the
await-key stall with a four-state latch (`KeyWaitState`).

Machine words are naturals carrying the u8/u16 ranges of the source;
wrapping arithmetic is written with an explicit `% 256` / `% 65536`
(release-profile wrapping semantics). A fallible operation — one whose
Rust original panics on an out-of-bounds slice or on unwrapping an empty
pop — returns `Option`. Logging and audio calls have no machine-state
effect and are dropped. -/

/-- Pointwise update of a byte store. -/
def upd (f : Nat → Nat) (i v : Nat) : Nat → Nat := fun j => if j = i then v else f j

/-- Pointwise update of a key-state store. -/
def updB (f : Nat → Bool) (i : Nat) (v : Bool) : Nat → Bool :=
  fun j => if j = i then v else f j

/-- The bytes at addresses `base, base+1, ..., base+n-1`. -/
def readBytes (mem : Nat → Nat) (base : Nat) : Nat → List Nat
  | 0 => []
  | n + 1 => readBytes mem base n ++ [mem (base + n)]

/-- Copy `n` bytes from `src` (starting at `sb`) into `dst` (starting at `db`),
modelling the `copy_from_slice` calls of the block-transfer instructions. -/
def copyTo (dst src : Nat → Nat) (db sb : Nat) : Nat → (Nat → Nat)
  | 0 => dst
  | n + 1 => upd (copyTo dst src db sb n) (db + n) (src (sb + n))

/-- src/draw_job.rs `Sprite`. -/
structure Sprite where
  vX : Nat
  vY : Nat
  buf : List Nat
deriving DecidableEq

/-- src/draw_job.rs `DrawJob`. -/
inductive DrawJob where
  | draw (s : Sprite)
  | clear
deriving DecidableEq

/-- src/chip_8.rs `InstructionDecode`. -/
structure InstructionDecode where
  opcode : Nat
  x : Nat
  y : Nat
  funct : Nat
  immediate : Nat
  address : Nat
deriving DecidableEq

/-- src/chip_8.rs `InstructionDecode::decode`. -/
def InstructionDecode.decode (w : Nat) : InstructionDecode :=
  { opcode := w >>> 12
    x := (w &&& 0x0F00) >>> 8
    y := (w &&& 0x00F0) >>> 4
    funct := w &&& 0x000F
    immediate := w &&& 0x00FF
    address := w &&& 0x0FFF }

/-- src/chip_8.rs `Chip8`: the draw-queue interpreter variant. -/
structure Chip8 where
  drawQueue : List DrawJob
  stack : List Nat
  registerFile : Nat → Nat
  ir : Nat
  pc : Nat
  indirect : Nat
  delayTimer : Nat
  soundTimer : Nat
  memory : Nat → Nat
  videoMemory : Nat → Nat
  keyboard : Nat → Bool
  keyLatch : Option Nat
  awaitingKey : Bool
  instr : InstructionDecode

/-- `Chip8::fetch`: read two bytes big-endian at `pc` into `ir` and advance
`pc` by 2; the slice panics when `pc + 2` exceeds the 4096-byte memory. -/
def Chip8.fetch (st : Chip8) : Option Chip8 :=
  if st.pc + 2 ≤ 4096 then
    some { st with ir := st.memory st.pc * 256 + st.memory (st.pc + 1), pc := st.pc + 2 }
  else none

/-- The big-endian instruction word at the current `pc`. -/
def Chip8.fetchWord (st : Chip8) : Nat := st.memory st.pc * 256 + st.memory (st.pc + 1)

/-- `Chip8::decode`. -/
def Chip8.decode (st : Chip8) : Chip8 := { st with instr := InstructionDecode.decode st.ir }

/-- `Chip8::clear_screen`. -/
def Chip8.clear_screen (st : Chip8) : Chip8 :=
  { st with drawQueue := st.drawQueue ++ [DrawJob.clear] }

/-- `Chip8::ret`: `pc = stack.pop().unwrap()`; the unwrap panics on an empty
stack. -/
def Chip8.ret (st : Chip8) : Option Chip8 :=
  match st.stack with
  | [] => none
  | a :: rest => some { st with pc := a, stack := rest }

/-- `Chip8::jump`. -/
def Chip8.jump (addr : Nat) (st : Chip8) : Chip8 := { st with pc := addr }

/-- `Chip8::call`. -/
def Chip8.call (addr : Nat) (st : Chip8) : Chip8 :=
  { st with stack := st.pc :: st.stack, pc := addr }

/-- `Chip8::skip_vx_e_imm`. -/
def Chip8.skip_vx_e_imm (x imm : Nat) (st : Chip8) : Chip8 :=
  if st.registerFile x = imm then { st with pc := st.pc + 2 } else st

/-- `Chip8::skip_vx_ne_imm`. -/
def Chip8.skip_vx_ne_imm (x imm : Nat) (st : Chip8) : Chip8 :=
  if st.registerFile x ≠ imm then { st with pc := st.pc + 2 } else st

/-- `Chip8::skip_vx_e_vy`. -/
def Chip8.skip_vx_e_vy (x y : Nat) (st : Chip8) : Chip8 :=
  if st.registerFile x = st.registerFile y then { st with pc := st.pc + 2 } else st

/-- `Chip8::load_imm`. -/
def Chip8.load_imm (x imm : Nat) (st : Chip8) : Chip8 :=
  { st with registerFile := upd st.registerFile x imm }

/-- `Chip8::add_imm`: u8 wrapping add. -/
def Chip8.add_imm (x imm : Nat) (st : Chip8) : Chip8 :=
  { st with registerFile := upd st.registerFile x ((st.registerFile x + imm) % 256) }

/-- `Chip8::or_reg`: bitwise or, then the flag register is reset to 0. -/
def Chip8.or_reg (x y : Nat) (st : Chip8) : Chip8 :=
  let rf := upd st.registerFile x (st.registerFile x ||| st.registerFile y)
  { st with registerFile := upd rf 0xF 0 }

/-- `Chip8::and_reg`: bitwise and, then the flag register is reset to 0. -/
def Chip8.and_reg (x y : Nat) (st : Chip8) : Chip8 :=
  let rf := upd st.registerFile x (st.registerFile x &&& st.registerFile y)
  { st with registerFile := upd rf 0xF 0 }

/-- `Chip8::xor_reg`: bitwise xor, then the flag register is reset to 0. -/
def Chip8.xor_reg (x y : Nat) (st : Chip8) : Chip8 :=
  let rf := upd st.registerFile x (st.registerFile x ^^^ st.registerFile y)
  { st with registerFile := upd rf 0xF 0 }

/-- `Chip8::add_reg`: `overflowing_add`; result first, then the carry flag. -/
def Chip8.add_reg (x y : Nat) (st : Chip8) : Chip8 :=
  let rf := upd st.registerFile x ((st.registerFile x + st.registerFile y) % 256)
  let flag := if 256 ≤ st.registerFile x + st.registerFile y then 1 else 0
  { st with registerFile := upd rf 0xF flag }

/-- `Chip8::sub_reg`: `overflowing_sub`; result first, then flag = 1 on no
borrow. The wrapping u8 difference is `(Vx + 256 - Vy) % 256` for u8 values. -/
def Chip8.sub_reg (x y : Nat) (st : Chip8) : Chip8 :=
  let rf := upd st.registerFile x ((st.registerFile x + 256 - st.registerFile y) % 256)
  let flag := if st.registerFile x < st.registerFile y then 0 else 1
  { st with registerFile := upd rf 0xF flag }

/-- `Chip8::shr_reg`: `Vx = Vy >> 1`; flag = low bit of the pre-shift `Vy`. -/
def Chip8.shr_reg (x y : Nat) (st : Chip8) : Chip8 :=
  let rf := upd st.registerFile x (st.registerFile y >>> 1)
  { st with registerFile := upd rf 0xF (st.registerFile y &&& 1) }

/-- `Chip8::subn_reg`: `overflowing_sub` with operands swapped. -/
def Chip8.subn_reg (x y : Nat) (st : Chip8) : Chip8 :=
  let rf := upd st.registerFile x ((st.registerFile y + 256 - st.registerFile x) % 256)
  let flag := if st.registerFile y < st.registerFile x then 0 else 1
  { st with registerFile := upd rf 0xF flag }

/-- `Chip8::shl_reg`: `Vx = Vy << 1` wrapping to u8; flag = high bit of the
pre-shift `Vy`. -/
def Chip8.shl_reg (x y : Nat) (st : Chip8) : Chip8 :=
  let rf := upd st.registerFile x ((st.registerFile y <<< 1) % 256)
  { st with registerFile := upd rf 0xF (st.registerFile y >>> 7) }

/-- `Chip8::load_addr`. -/
def Chip8.load_addr (addr : Nat) (st : Chip8) : Chip8 := { st with indirect := addr }

/-- `Chip8::skip_vx_ne_vy`. -/
def Chip8.skip_vx_ne_vy (x y : Nat) (st : Chip8) : Chip8 :=
  if st.registerFile x ≠ st.registerFile y then { st with pc := st.pc + 2 } else st

/-- `Chip8::draw_sprite`: read `n` bytes at `[indirect, indirect+n)` (the
slice panics past the end of memory) and enqueue a `Draw` job whose origin
is the raw `Vx`, `Vy` register contents. -/
def Chip8.draw_sprite (x y n : Nat) (st : Chip8) : Option Chip8 :=
  if st.indirect + n ≤ 4096 then
    let job := DrawJob.draw ⟨st.registerFile x, st.registerFile y, readBytes st.memory st.indirect n⟩
    some { st with drawQueue := st.drawQueue ++ [job] }
  else none

/-- `Chip8::skip_pressed`. -/
def Chip8.skip_pressed (x : Nat) (st : Chip8) : Chip8 :=
  if st.keyboard (st.registerFile x &&& 0xF) then { st with pc := st.pc + 2 } else st

/-- `Chip8::skip_not_pressed`. -/
def Chip8.skip_not_pressed (x : Nat) (st : Chip8) : Chip8 :=
  if st.keyboard (st.registerFile x &&& 0xF) then st else { st with pc := st.pc + 2 }

/-- `Chip8::get_key`: only raises the awaiting-key latch. -/
def Chip8.get_key (x : Nat) (st : Chip8) : Chip8 := { st with awaitingKey := true }

/-- `Chip8::load_sound_timer`. -/
def Chip8.load_sound_timer (x : Nat) (st : Chip8) : Chip8 :=
  { st with soundTimer := st.registerFile x }

/-- `Chip8::load_hex_sprite`: the source reads `self.instr.x`, ignoring its
parameter. -/
def Chip8.load_hex_sprite (x : Nat) (st : Chip8) : Chip8 :=
  { st with indirect := 5 * (st.registerFile st.instr.x &&& 0x00FF) }

/-- `Chip8::store_bcd`: write the decimal digits of `Vx`, most significant
first, at `[indirect, indirect+3)`; indexing panics past the end of memory
(the first write, at `indirect + 2`, happens before the others). -/
def Chip8.store_bcd (x : Nat) (st : Chip8) : Option Chip8 :=
  if st.indirect + 3 ≤ 4096 then
    let m2 := upd st.memory (st.indirect + 2) (st.registerFile x % 10)
    let m1 := upd m2 (st.indirect + 1) (st.registerFile x / 10 % 10)
    some { st with memory := upd m1 st.indirect (st.registerFile x / 100 % 10) }
  else none

/-- `Chip8::store_block`: copy `V0..=Vx` to `[indirect, indirect+x+1)` and
advance `indirect` by `x+1`; the slices panic when either range is out of
bounds (register file length 16, memory length 4096). -/
def Chip8.store_block (x : Nat) (st : Chip8) : Option Chip8 :=
  if x + 1 ≤ 16 ∧ st.indirect + x + 1 ≤ 4096 then
    let m := copyTo st.memory st.registerFile st.indirect 0 (x + 1)
    some { st with memory := m, indirect := st.indirect + x + 1 }
  else none

/-- `Chip8::load_block`: copy `[indirect, indirect+x+1)` into `V0..=Vx` and
advance `indirect` by `x+1`; same bounds conditions as `store_block`. -/
def Chip8.load_block (x : Nat) (st : Chip8) : Option Chip8 :=
  if x + 1 ≤ 16 ∧ st.indirect + x + 1 ≤ 4096 then
    let rf := copyTo st.registerFile st.memory 0 st.indirect (x + 1)
    some { st with registerFile := rf, indirect := st.indirect + x + 1 }
  else none

/-- `Chip8::execute`: dispatch on the decoded instruction held in `instr`.
`r` stands for the random byte drawn by the `0xC` instruction. Unknown
selectors only log and leave the state as dispatched to. -/
def Chip8.execute (r : Nat) (st : Chip8) : Option Chip8 :=
  if st.instr.opcode = 0x0 then
    if st.instr.address = 0x0E0 then some (Chip8.clear_screen st)
    else if st.instr.address = 0x0EE then Chip8.ret st
    else some st
  else if st.instr.opcode = 0x1 then some (Chip8.jump st.instr.address st)
  else if st.instr.opcode = 0x2 then some (Chip8.call st.instr.address st)
  else if st.instr.opcode = 0x3 then some (Chip8.skip_vx_e_imm st.instr.x st.instr.immediate st)
  else if st.instr.opcode = 0x4 then some (Chip8.skip_vx_ne_imm st.instr.x st.instr.immediate st)
  else if st.instr.opcode = 0x5 then some (Chip8.skip_vx_e_vy st.instr.x st.instr.y st)
  else if st.instr.opcode = 0x6 then some (Chip8.load_imm st.instr.x st.instr.immediate st)
  else if st.instr.opcode = 0x7 then some (Chip8.add_imm st.instr.x st.instr.immediate st)
  else if st.instr.opcode = 0x8 then
    if st.instr.funct = 0x0 then
      some { st with registerFile := upd st.registerFile st.instr.x (st.registerFile st.instr.y) }
    else if st.instr.funct = 0x1 then some (Chip8.or_reg st.instr.x st.instr.y st)
    else if st.instr.funct = 0x2 then some (Chip8.and_reg st.instr.x st.instr.y st)
    else if st.instr.funct = 0x3 then some (Chip8.xor_reg st.instr.x st.instr.y st)
    else if st.instr.funct = 0x4 then some (Chip8.add_reg st.instr.x st.instr.y st)
    else if st.instr.funct = 0x5 then some (Chip8.sub_reg st.instr.x st.instr.y st)
    else if st.instr.funct = 0x6 then some (Chip8.shr_reg st.instr.x st.instr.y st)
    else if st.instr.funct = 0x7 then some (Chip8.subn_reg st.instr.x st.instr.y st)
    else if st.instr.funct = 0xE then some (Chip8.shl_reg st.instr.x st.instr.y st)
    else some st
  else if st.instr.opcode = 0x9 then some (Chip8.skip_vx_ne_vy st.instr.x st.instr.y st)
  else if st.instr.opcode = 0xA then some (Chip8.load_addr st.instr.address st)
  else if st.instr.opcode = 0xB then
    some { st with pc := st.instr.address + st.registerFile 0 }
  else if st.instr.opcode = 0xC then
    some { st with registerFile := upd st.registerFile st.instr.x (r &&& st.instr.immediate) }
  else if st.instr.opcode = 0xD then
    Chip8.draw_sprite st.instr.x st.instr.y st.instr.funct st
  else if st.instr.opcode = 0xE then
    if st.instr.immediate = 0x9E then some (Chip8.skip_pressed st.instr.x st)
    else if st.instr.immediate = 0xA1 then some (Chip8.skip_not_pressed st.instr.x st)
    else some st
  else if st.instr.opcode = 0xF then
    if st.instr.immediate = 0x07 then
      some { st with registerFile := upd st.registerFile st.instr.x st.delayTimer }
    else if st.instr.immediate = 0x0A then some (Chip8.get_key st.instr.x st)
    else if st.instr.immediate = 0x15 then
      some { st with delayTimer := st.registerFile st.instr.x }
    else if st.instr.immediate = 0x18 then some (Chip8.load_sound_timer st.instr.x st)
    else if st.instr.immediate = 0x1E then
      some { st with indirect := (st.indirect + st.registerFile st.instr.x) % 65536 }
    else if st.instr.immediate = 0x29 then some (Chip8.load_hex_sprite st.instr.x st)
    else if st.instr.immediate = 0x33 then Chip8.store_bcd st.instr.x st
    else if st.instr.immediate = 0x55 then Chip8.store_block st.instr.x st
    else if st.instr.immediate = 0x65 then Chip8.load_block st.instr.x st
    else some st
  else some st

/-- `Chip8::instruction_cycle`: fetch, decode, execute. -/
def Chip8.instruction_cycle (r : Nat) (st : Chip8) : Option Chip8 :=
  match Chip8.fetch st with
  | none => none
  | some st1 => Chip8.execute r (Chip8.decode st1)

/-- `Chip8::decrement_timers` (saturating decrements). -/
def Chip8.decrement_timers (st : Chip8) : Chip8 :=
  { st with delayTimer := st.delayTimer - 1, soundTimer := st.soundTimer - 1 }

/-- `Chip8::handle_input` on an already-mapped logical key: record the key
state, then drive the awaiting-key latch (the latch takes the first event of
any kind; a second event on the latched key resolves immediately). -/
def Chip8.handle_input (key : Nat) (pressed : Bool) (st : Chip8) : Chip8 :=
  let st1 := { st with keyboard := updB st.keyboard key pressed }
  if st1.awaitingKey then
    match st1.keyLatch with
    | some l =>
        if l = key then
          { st1 with registerFile := upd st1.registerFile st1.instr.x l, awaitingKey := false,
                     keyLatch := none }
        else st1
    | none => { st1 with keyLatch := some key }
  else st1

/-- `Chip8::set_collision`: the renderer reports the collision outcome and the
core writes it into the flag register. -/
def Chip8.set_collision (collides : Bool) (st : Chip8) : Chip8 :=
  { st with registerFile := upd st.registerFile 0xF (if collides then 1 else 0) }

/-- `Chip8::waiting`. -/
def Chip8.waiting (st : Chip8) : Bool := st.awaitingKey

/-- `Chip8::poll_draw_queue`. -/
def Chip8.poll_draw_queue (st : Chip8) : Option DrawJob × Chip8 :=
  match st.drawQueue with
  | [] => (none, st)
  | j :: rest => (some j, { st with drawQueue := rest })

/-- src/app.rs `KeyWaitState`: the four-state await-key latch. -/
inductive KeyWaitState where
  | idle
  | waiting
  | pressed (k : Nat)
  | released (k : Nat)
deriving DecidableEq

/-- src/app.rs `App`: the monolithic interpreter variant. The window, audio
sink and real-time timers are external collaborators; the pixel frame
(`WIDTH*HEIGHT*4` RGBA bytes owned by the `pixels` surface) is modelled as a
byte store. -/
structure App where
  frame : Nat → Nat
  key_wait : KeyWaitState
  memory : Nat → Nat
  pc : Nat
  sp : Nat
  i : Nat
  v_file : Nat → Nat
  keypad : Nat → Bool
  delay_timer : Nat
  sound_timer : Nat

/-- `App::clear_screen`: every frame pixel is set to opaque black. -/
def App.clear_screen (st : App) : App :=
  let f := fun idx => if idx < 8192 then (if idx % 4 = 3 then 0xFF else 0) else st.frame idx
  { st with frame := f }

/-- `App::ret`: `sp` is decremented by 2 (wrapping u8) and the return address
is read back big-endian from `memory[sp..sp+2]`. -/
def App.ret (st : App) : App :=
  let sp2 := (st.sp + 254) % 256
  { st with sp := sp2, pc := st.memory sp2 * 256 + st.memory (sp2 + 1) }

/-- `App::jump`. -/
def App.jump (addr : Nat) (st : App) : App := { st with pc := addr }

/-- `App::call`: the return address is stored big-endian at
`memory[sp..sp+2]` and `sp` advances by 2 (wrapping u8). -/
def App.call (addr : Nat) (st : App) : App :=
  let m := upd (upd st.memory st.sp (st.pc >>> 8)) (st.sp + 1) (st.pc &&& 0x00FF)
  { st with memory := m, sp := (st.sp + 2) % 256, pc := addr }

/-- `App::skip_vx_e_imm`. -/
def App.skip_vx_e_imm (x imm : Nat) (st : App) : App :=
  if st.v_file x = imm then { st with pc := st.pc + 2 } else st

/-- `App::skip_vx_ne_imm`. -/
def App.skip_vx_ne_imm (x imm : Nat) (st : App) : App :=
  if st.v_file x ≠ imm then { st with pc := st.pc + 2 } else st

/-- `App::skip_vx_e_vy`. -/
def App.skip_vx_e_vy (x y : Nat) (st : App) : App :=
  if st.v_file x = st.v_file y then { st with pc := st.pc + 2 } else st

/-- `App::load_imm`. -/
def App.load_imm (x imm : Nat) (st : App) : App :=
  { st with v_file := upd st.v_file x imm }

/-- `App::add_imm`. -/
def App.add_imm (x imm : Nat) (st : App) : App :=
  { st with v_file := upd st.v_file x ((st.v_file x + imm) % 256) }

/-- `App::or_reg`. -/
def App.or_reg (x y : Nat) (st : App) : App :=
  let vf := upd st.v_file x (st.v_file x ||| st.v_file y)
  { st with v_file := upd vf 0xF 0 }

/-- `App::and_reg`. -/
def App.and_reg (x y : Nat) (st : App) : App :=
  let vf := upd st.v_file x (st.v_file x &&& st.v_file y)
  { st with v_file := upd vf 0xF 0 }

/-- `App::xor_reg`. -/
def App.xor_reg (x y : Nat) (st : App) : App :=
  let vf := upd st.v_file x (st.v_file x ^^^ st.v_file y)
  { st with v_file := upd vf 0xF 0 }

/-- `App::add_reg`. -/
def App.add_reg (x y : Nat) (st : App) : App :=
  let vf := upd st.v_file x ((st.v_file x + st.v_file y) % 256)
  let flag := if 256 ≤ st.v_file x + st.v_file y then 1 else 0
  { st with v_file := upd vf 0xF flag }

/-- `App::sub_reg`. -/
def App.sub_reg (x y : Nat) (st : App) : App :=
  let vf := upd st.v_file x ((st.v_file x + 256 - st.v_file y) % 256)
  let flag := if st.v_file x < st.v_file y then 0 else 1
  { st with v_file := upd vf 0xF flag }

/-- `App::shr_reg`. -/
def App.shr_reg (x y : Nat) (st : App) : App :=
  let vf := upd st.v_file x (st.v_file y >>> 1)
  { st with v_file := upd vf 0xF (st.v_file y &&& 1) }

/-- `App::subn_reg`. -/
def App.subn_reg (x y : Nat) (st : App) : App :=
  let vf := upd st.v_file x ((st.v_file y + 256 - st.v_file x) % 256)
  let flag := if st.v_file y < st.v_file x then 0 else 1
  { st with v_file := upd vf 0xF flag }

/-- `App::shl_reg`. -/
def App.shl_reg (x y : Nat) (st : App) : App :=
  let vf := upd st.v_file x ((st.v_file y <<< 1) % 256)
  { st with v_file := upd vf 0xF (st.v_file y >>> 7) }

/-- `App::load_addr`. -/
def App.load_addr (addr : Nat) (st : App) : App := { st with i := addr }

/-- `App::skip_vx_ne_vy`. -/
def App.skip_vx_ne_vy (x y : Nat) (st : App) : App :=
  if st.v_file x ≠ st.v_file y then { st with pc := st.pc + 2 } else st

/-- One column step of `App::draw_sprite`: for column `j` of sprite row
`row` at row index `ri`, mirror the source literally — the bit test
`row & (1 << (7 - j) >> (7 - j)) == 1`, the clipping guards, the collision
check against the current frame, and the XOR writes to the four RGBA
bytes. The accumulator carries the frame and the `flipped` flag. -/
def App.drawColStep (nx ny ri row : Nat) (acc : (Nat → Nat) × Bool) (j : Nat) :
    (Nat → Nat) × Bool :=
  let frame := acc.1
  let flipped := acc.2
  if row &&& ((1 <<< (7 - j)) >>> (7 - j)) = 1 then
    if 64 ≤ nx + j then acc
    else if 32 ≤ ny + ri then acc
    else
      let index := 4 * (nx + j + 64 * (ny + ri))
      let check := frame index &&& 0xFF ||| frame (index + 1) &&& 0xFF |||
        frame (index + 2) &&& 0xFF
      let flipped2 := if flipped then flipped else if 0 < check then true else flipped
      let f1 := upd frame index (frame index ^^^ 0xFF)
      let f2 := upd f1 (index + 1) (f1 (index + 1) ^^^ 0xFF)
      let f3 := upd f2 (index + 2) (f2 (index + 2) ^^^ 0xFF)
      let f4 := upd f3 (index + 3) 0xFF
      (f4, flipped2)
  else acc

/-- One row step of `App::draw_sprite`: fold the column step over the eight
columns of the sprite byte at `memory[base + ri]`. -/
def App.drawRowStep (nx ny : Nat) (mem : Nat → Nat) (base : Nat)
    (acc : (Nat → Nat) × Bool) (ri : Nat) : (Nat → Nat) × Bool :=
  (List.range 8).foldl (App.drawColStep nx ny ri (mem (base + ri))) acc

/-- `App::draw_sprite`: XOR-blit `funct` sprite rows read at
`[i, i+funct)` (the slice panics past the end of memory) onto the frame at
origin `(Vx mod 64, Vy mod 32)`, clipping at the frame edges, and write the
collision flag into `V0xF`. -/
def App.draw_sprite (x y funct : Nat) (st : App) : Option App :=
  if st.i + funct ≤ 4096 then
    let nx := st.v_file x % 64
    let ny := st.v_file y % 32
    let res := (List.range funct).foldl (App.drawRowStep nx ny st.memory st.i) (st.frame, false)
    some { st with frame := res.1, v_file := upd st.v_file 0xF (if res.2 then 1 else 0) }
  else none

/-- `App::skip_pressed`. -/
def App.skip_pressed (x : Nat) (st : App) : App :=
  if st.keypad (st.v_file x &&& 0xF) then { st with pc := st.pc + 2 } else st

/-- `App::skip_not_pressed`. -/
def App.skip_not_pressed (x : Nat) (st : App) : App :=
  if st.keypad (st.v_file x &&& 0xF) then st else { st with pc := st.pc + 2 }

/-- `App::await_key`: roll `pc` back by 2; from `Idle` enter `Waiting`; from
`Released(key)` advance `pc` again, write the key into `Vx` and return to
`Idle`; in `Waiting` or `Pressed` change nothing further. -/
def App.await_key (x : Nat) (st : App) : App :=
  let st1 := { st with pc := st.pc - 2 }
  match st1.key_wait with
  | KeyWaitState.idle => { st1 with key_wait := KeyWaitState.waiting }
  | KeyWaitState.released key =>
      { st1 with pc := st1.pc + 2, v_file := upd st1.v_file x key,
                 key_wait := KeyWaitState.idle }
  | _ => st1

/-- `App::load_sound_timer` (the `sink.play()` side effect is external). -/
def App.load_sound_timer (x : Nat) (st : App) : App :=
  { st with sound_timer := st.v_file x }

/-- `App::store_bcd`. -/
def App.store_bcd (x : Nat) (st : App) : Option App :=
  if st.i + 3 ≤ 4096 then
    let m2 := upd st.memory (st.i + 2) (st.v_file x % 10)
    let m1 := upd m2 (st.i + 1) (st.v_file x / 10 % 10)
    some { st with memory := upd m1 st.i (st.v_file x / 100 % 10) }
  else none

/-- `App::store_block`. -/
def App.store_block (x : Nat) (st : App) : Option App :=
  if x + 1 ≤ 16 ∧ st.i + x + 1 ≤ 4096 then
    let m := copyTo st.memory st.v_file st.i 0 (x + 1)
    some { st with memory := m, i := st.i + x + 1 }
  else none

/-- `App::load_block`. -/
def App.load_block (x : Nat) (st : App) : Option App :=
  if x + 1 ≤ 16 ∧ st.i + x + 1 ≤ 4096 then
    let vf := copyTo st.v_file st.memory 0 st.i (x + 1)
    some { st with v_file := vf, i := st.i + x + 1 }
  else none

/-- `App::instruction_cycle`: fetch two bytes big-endian at `pc` (the slice
panics when `pc + 2` exceeds memory), advance `pc` by 2, decode the fields
inline and dispatch. `r` is the random byte of the `0xC` instruction.
Unknown selectors only print and leave the state as dispatched to. -/
def App.instruction_cycle (r : Nat) (st : App) : Option App :=
  if st.pc + 2 ≤ 4096 then
    let instr := st.memory st.pc * 256 + st.memory (st.pc + 1)
    let st1 := { st with pc := st.pc + 2 }
    let opcode := instr >>> 12
    let x := (instr &&& 0x0F00) >>> 8
    let y := (instr &&& 0x00F0) >>> 4
    let funct := instr &&& 0x000F
    let imm := instr &&& 0x00FF
    let addr := instr &&& 0x0FFF
    if opcode = 0x0 then
      if addr = 0x0E0 then some (App.clear_screen st1)
      else if addr = 0x0EE then some (App.ret st1)
      else some st1
    else if opcode = 0x1 then some (App.jump addr st1)
    else if opcode = 0x2 then some (App.call addr st1)
    else if opcode = 0x3 then some (App.skip_vx_e_imm x imm st1)
    else if opcode = 0x4 then some (App.skip_vx_ne_imm x imm st1)
    else if opcode = 0x5 then some (App.skip_vx_e_vy x y st1)
    else if opcode = 0x6 then some (App.load_imm x imm st1)
    else if opcode = 0x7 then some (App.add_imm x imm st1)
    else if opcode = 0x8 then
      if funct = 0x0 then some { st1 with v_file := upd st1.v_file x (st1.v_file y) }
      else if funct = 0x1 then some (App.or_reg x y st1)
      else if funct = 0x2 then some (App.and_reg x y st1)
      else if funct = 0x3 then some (App.xor_reg x y st1)
      else if funct = 0x4 then some (App.add_reg x y st1)
      else if funct = 0x5 then some (App.sub_reg x y st1)
      else if funct = 0x6 then some (App.shr_reg x y st1)
      else if funct = 0x7 then some (App.subn_reg x y st1)
      else if funct = 0xE then some (App.shl_reg x y st1)
      else some st1
    else if opcode = 0x9 then some (App.skip_vx_ne_vy x y st1)
    else if opcode = 0xA then some (App.load_addr addr st1)
    else if opcode = 0xB then some { st1 with pc := addr + st1.v_file 0 }
    else if opcode = 0xC then some { st1 with v_file := upd st1.v_file x (r &&& imm) }
    else if opcode = 0xD then App.draw_sprite x y funct st1
    else if opcode = 0xE then
      if imm = 0x9E then some (App.skip_pressed x st1)
      else if imm = 0xA1 then some (App.skip_not_pressed x st1)
      else some st1
    else if opcode = 0xF then
      if imm = 0x07 then some { st1 with v_file := upd st1.v_file x st1.delay_timer }
      else if imm = 0x0A then some (App.await_key x st1)
      else if imm = 0x15 then some { st1 with delay_timer := st1.v_file x }
      else if imm = 0x18 then some (App.load_sound_timer x st1)
      else if imm = 0x1E then some { st1 with i := (st1.i + st1.v_file x) % 65536 }
      else if imm = 0x29 then some { st1 with i := 5 * (st1.v_file x &&& 0x00FF) }
      else if imm = 0x33 then App.store_bcd x st1
      else if imm = 0x55 then App.store_block x st1
      else if imm = 0x65 then App.load_block x st1
      else some st1
    else some st1
  else none

/-- The `WindowEvent::KeyboardInput` arm of `App::window_event`, after the
host key code has been mapped to a logical key index: record the key state
in the keypad, then drive the key-wait latch — a press moves `Waiting` to
`Pressed(key)`, and a release of exactly the latched key moves
`Pressed(key)` to `Released(key)`. -/
def App.handle_key (key : Nat) (pressed : Bool) (st : App) : App :=
  let st1 := { st with keypad := updB st.keypad key pressed }
  match st1.key_wait with
  | KeyWaitState.waiting =>
      if pressed then { st1 with key_wait := KeyWaitState.pressed key } else st1
  | KeyWaitState.pressed pcode =>
      if pressed = false ∧ key = pcode then { st1 with key_wait := KeyWaitState.released pcode }
      else st1
  | _ => st1

/-- A baseline `Chip8` machine state used by concrete instances. -/
def chipBase : Chip8 :=
  { drawQueue := [], stack := [], registerFile := fun _ => 0, ir := 0, pc := 0x200,
    indirect := 0, delayTimer := 0, soundTimer := 0, memory := fun _ => 0,
    videoMemory := fun _ => 0, keyboard := fun _ => false, keyLatch := none,
    awaitingKey := false, instr := InstructionDecode.decode 0 }

/-- A baseline `App` machine state used by concrete instances. -/
def appBase : App :=
  { frame := fun _ => 0, key_wait := KeyWaitState.idle, memory := fun _ => 0, pc := 0x200,
    sp := 0, i := 0, v_file := fun _ => 0, keypad := fun _ => false, delay_timer := 0,
    sound_timer := 0 }

/-- Concrete state for the bitwise-instruction instances: `V1 = 0xCC`,
`V2 = 0xAA`, prior flag `V0xF = 7`. -/
def c5Ex : Chip8 :=
  { chipBase with registerFile := fun j => if j = 1 then 0xCC else if j = 2 then 0xAA
      else if j = 0xF then 7 else 0 }

/-- Concrete state for the subtraction instances: `V1 = 5`, `V2 = 9`. -/
def c6Ex : Chip8 :=
  { chipBase with registerFile := fun j => if j = 1 then 5 else if j = 2 then 9 else 0 }

/-- Concrete state for the shift instances: `V2 = 0x81`. -/
def c7Ex : Chip8 :=
  { chipBase with registerFile := fun j => if j = 2 then 0x81 else 0 }

/-- Concrete state for the flag-destination instances: `V0xF = 200`,
`V2 = 100`. -/
def c10Ex : Chip8 :=
  { chipBase with registerFile := fun j => if j = 0xF then 200 else if j = 2 then 100 else 0 }

/-- The execute dispatch recognizes no handler for the decoded instruction:
an unknown machine subroutine (class `0x0`), ALU funct (class `0x8`), keypad
selector (class `0xE`), control selector (class `0xF`), or an opcode value
outside every match arm. -/
def InstructionDecode.unrecognized (d : InstructionDecode) : Prop :=
  (d.opcode = 0x0 ∧ d.address ≠ 0x0E0 ∧ d.address ≠ 0x0EE) ∨
  (d.opcode = 0x8 ∧ d.funct ≠ 0x0 ∧ d.funct ≠ 0x1 ∧ d.funct ≠ 0x2 ∧ d.funct ≠ 0x3 ∧
    d.funct ≠ 0x4 ∧ d.funct ≠ 0x5 ∧ d.funct ≠ 0x6 ∧ d.funct ≠ 0x7 ∧ d.funct ≠ 0xE) ∨
  (d.opcode = 0xE ∧ d.immediate ≠ 0x9E ∧ d.immediate ≠ 0xA1) ∨
  (d.opcode = 0xF ∧ d.immediate ≠ 0x07 ∧ d.immediate ≠ 0x0A ∧ d.immediate ≠ 0x15 ∧
    d.immediate ≠ 0x18 ∧ d.immediate ≠ 0x1E ∧ d.immediate ≠ 0x29 ∧ d.immediate ≠ 0x33 ∧
    d.immediate ≠ 0x55 ∧ d.immediate ≠ 0x65) ∨
  (d.opcode ≠ 0x0 ∧ d.opcode ≠ 0x1 ∧ d.opcode ≠ 0x2 ∧ d.opcode ≠ 0x3 ∧ d.opcode ≠ 0x4 ∧
    d.opcode ≠ 0x5 ∧ d.opcode ≠ 0x6 ∧ d.opcode ≠ 0x7 ∧ d.opcode ≠ 0x8 ∧ d.opcode ≠ 0x9 ∧
    d.opcode ≠ 0xA ∧ d.opcode ≠ 0xB ∧ d.opcode ≠ 0xC ∧ d.opcode ≠ 0xD ∧ d.opcode ≠ 0xE ∧
    d.opcode ≠ 0xF)

/-- The abort conditions of `Chip8::execute` on the decoded instruction held
in `instr`: a return with an empty call stack, or a draw / BCD / block
memory access through the index register that runs past the 4096-byte
memory. -/
def Chip8.execAborts (st : Chip8) : Prop :=
  (st.instr.opcode = 0x0 ∧ st.instr.address = 0x0EE ∧ st.stack = []) ∨
  (st.instr.opcode = 0xD ∧ 4096 < st.indirect + st.instr.funct) ∨
  (st.instr.opcode = 0xF ∧ st.instr.immediate = 0x33 ∧ 4096 < st.indirect + 3) ∨
  (st.instr.opcode = 0xF ∧ (st.instr.immediate = 0x55 ∨ st.instr.immediate = 0x65) ∧
    4096 < st.indirect + st.instr.x + 1)

/-- Concrete `Chip8` state for the C4 counterexample: the draw instruction
`0xD011` at `pc = 0x200` with `indirect = 4096` and a nonempty stack. -/
def c4Cex : Chip8 :=
  { chipBase with
      memory := fun a => if a = 0x200 then 0xD0 else if a = 0x201 then 0x11 else 0,
      indirect := 4096, stack := [0x300] }

/-- Concrete `Chip8` state for the C3 instances: the draw instruction
`0xD012` at `pc = 0x200` with `V0 = 64`, `V1 = 0`, `indirect = 0`. -/
def c3Cex : Chip8 :=
  { chipBase with
      memory := fun a => if a = 0x200 then 0xD0 else if a = 0x201 then 0x12 else 0,
      registerFile := fun j => if j = 0 then 64 else 0 }

/-- Concrete `Chip8` state for the C8 witness: the instruction word `0x8008`
(ALU class with unknown funct `0x8`) at `pc = 0x200`. -/
def c8Ex : Chip8 :=
  { chipBase with
      memory := fun a => if a = 0x200 then 0x80 else if a = 0x201 then 0x08 else 0 }

/-- Concrete `Chip8` state for the C9 witness: `indirect = 0x300` and
`Vj = j + 1`. -/
def c9Ex : Chip8 :=
  { chipBase with indirect := 0x300, registerFile := fun j => j + 1 }

/-- Concrete `Chip8` state for the C9 counterexample: `indirect = 4096`, one
past the last memory address. -/
def c9Cex : Chip8 := { chipBase with indirect := 4096 }

/-- Concrete `App` state for the C1 instance: the await-key instruction
`0xF10A` at `pc = 0x200`, latch in `Waiting`. -/
def c1Ex : App :=
  { appBase with
      memory := fun a => if a = 0x200 then 0xF1 else if a = 0x201 then 0x0A else 0,
      key_wait := KeyWaitState.waiting }

/-- Concrete `App` state for the C2 instance: the await-key instruction
`0xF50A` at `pc = 0x200`, latch in `Waiting`. -/
def c2Ex : App :=
  { appBase with
      memory := fun a => if a = 0x200 then 0xF5 else if a = 0x201 then 0x0A else 0,
      key_wait := KeyWaitState.waiting }

/-- Claim C5: register OR, AND and XOR store the bitwise result in `Vx`
(when `x` is not the flag register itself, whose value the trailing flag
reset overwrites) and always leave `V0xF` at exactly 0 afterward,
regardless of its prior value. -/
theorem c5_bitwise_ops_reset_flag (st : Chip8) (x y : Nat) :
    (Chip8.or_reg x y st).registerFile 0xF = 0 ∧
    (Chip8.and_reg x y st).registerFile 0xF = 0 ∧
    (Chip8.xor_reg x y st).registerFile 0xF = 0 ∧
    (x ≠ 0xF →
      (Chip8.or_reg x y st).registerFile x = st.registerFile x ||| st.registerFile y ∧
      (Chip8.and_reg x y st).registerFile x = st.registerFile x &&& st.registerFile y ∧
      (Chip8.xor_reg x y st).registerFile x = st.registerFile x ^^^ st.registerFile y) := by
  refine ⟨?_, ?_, ?_, fun hx => ⟨?_, ?_, ?_⟩⟩ <;>
    simp [Chip8.or_reg, Chip8.and_reg, Chip8.xor_reg, upd, *]

/-- Witness for C5 at `x = 1`, `y = 2` on a state with prior flag 7. -/
theorem c5_bitwise_ops_reset_flag_witness :
    (Chip8.or_reg 1 2 c5Ex).registerFile 0xF = 0 ∧
    (Chip8.or_reg 1 2 c5Ex).registerFile 1 = c5Ex.registerFile 1 ||| c5Ex.registerFile 2 := by
  obtain ⟨h1, _, _, h4⟩ := c5_bitwise_ops_reset_flag c5Ex 1 2
  exact ⟨h1, (h4 (by decide)).1⟩

/-- Claim C6: `sub_reg` stores the wrapping difference `Vx - Vy` and sets the
flag to 1 exactly when the pre-instruction `Vx ≥ Vy`; `subn_reg` mirrors it
with operands swapped; at `Vx = Vy` both flags are 1. -/
theorem c6_sub_subn_flags (st : Chip8) (x y : Nat)
    (ha : st.registerFile x < 256) (hb : st.registerFile y < 256) :
    ((Chip8.sub_reg x y st).registerFile 0xF =
      if st.registerFile y ≤ st.registerFile x then 1 else 0) ∧
    ((Chip8.subn_reg x y st).registerFile 0xF =
      if st.registerFile x ≤ st.registerFile y then 1 else 0) ∧
    (x ≠ 0xF →
      ((Chip8.sub_reg x y st).registerFile x : Int) =
        ((st.registerFile x : Int) - (st.registerFile y : Int)) % 256 ∧
      ((Chip8.subn_reg x y st).registerFile x : Int) =
        ((st.registerFile y : Int) - (st.registerFile x : Int)) % 256) ∧
    (st.registerFile x = st.registerFile y →
      (Chip8.sub_reg x y st).registerFile 0xF = 1 ∧
      (Chip8.subn_reg x y st).registerFile 0xF = 1) := by
  refine ⟨?_, ?_, fun hx => ?_, fun he => ?_⟩
  · simp only [Chip8.sub_reg, upd, if_pos rfl]
    split_ifs <;> omega
  · simp only [Chip8.subn_reg, upd, if_pos rfl]
    split_ifs <;> omega
  · have hx2 : ¬ (x = 0xF) := hx
    constructor <;>
      · simp only [Chip8.sub_reg, Chip8.subn_reg, upd, if_pos rfl, if_neg hx2]
        push_cast
        omega
  · constructor <;>
      · simp only [Chip8.sub_reg, Chip8.subn_reg, upd, if_pos rfl, he]
        simp

/-- Witness for C6 at `x = 1`, `y = 2` with `V1 = 5`, `V2 = 9`. -/
theorem c6_sub_subn_flags_witness :
    ((Chip8.sub_reg 1 2 c6Ex).registerFile 0xF =
      if c6Ex.registerFile 2 ≤ c6Ex.registerFile 1 then 1 else 0) ∧
    ((Chip8.sub_reg 1 2 c6Ex).registerFile 1 : Int) =
      ((c6Ex.registerFile 1 : Int) - (c6Ex.registerFile 2 : Int)) % 256 := by
  obtain ⟨h1, _, h3, _⟩ := c6_sub_subn_flags c6Ex 1 2 (by decide) (by decide)
  exact ⟨h1, (h3 (by decide)).1⟩

/-- Claim C7: shift-right stores the pre-shift `Vy` shifted right by one into
`Vx` with the flag receiving the low bit of the pre-shift `Vy`; shift-left
stores the wrapping double of the pre-shift `Vy` with the flag receiving its
high bit — both flags come from the source register `Vy`. -/
theorem c7_shift_flags_from_vy (st : Chip8) (x y : Nat) (hy : st.registerFile y < 256) :
    ((Chip8.shr_reg x y st).registerFile 0xF = st.registerFile y % 2) ∧
    ((Chip8.shl_reg x y st).registerFile 0xF = st.registerFile y / 128) ∧
    (x ≠ 0xF →
      (Chip8.shr_reg x y st).registerFile x = st.registerFile y / 2 ∧
      (Chip8.shl_reg x y st).registerFile x = st.registerFile y * 2 % 256) := by
  have hr : st.registerFile y >>> 1 = st.registerFile y / 2 := Nat.shiftRight_eq_div_pow _ 1
  have hl : st.registerFile y <<< 1 = st.registerFile y * 2 := Nat.shiftLeft_eq _ 1
  have h7 : st.registerFile y >>> 7 = st.registerFile y / 128 := Nat.shiftRight_eq_div_pow _ 7
  refine ⟨?_, ?_, fun hx => ⟨?_, ?_⟩⟩ <;>
    simp [Chip8.shr_reg, Chip8.shl_reg, upd, Nat.and_one_is_mod, hr, hl, h7, *]

/-- Witness for C7 at `x = 1`, `y = 2` with `V2 = 0x81`. -/
theorem c7_shift_flags_from_vy_witness :
    ((Chip8.shr_reg 1 2 c7Ex).registerFile 0xF = c7Ex.registerFile 2 % 2) ∧
    ((Chip8.shl_reg 1 2 c7Ex).registerFile 0xF = c7Ex.registerFile 2 / 128) ∧
    (Chip8.shr_reg 1 2 c7Ex).registerFile 1 = c7Ex.registerFile 2 / 2 := by
  obtain ⟨h1, h2, h3⟩ := c7_shift_flags_from_vy c7Ex 1 2 (by decide)
  exact ⟨h1, h2, (h3 (by decide)).1⟩

/-- Claim C10: when the destination register is `V0xF` itself, the five
flag-producing register instructions leave `V0xF` holding the flag (carry,
no-borrow, shifted-out bit) — the arithmetic result written first is then
overwritten by the flag write. -/
theorem c10_flag_overwrites_result (st : Chip8) (y : Nat) (hy : st.registerFile y < 256) :
    ((Chip8.add_reg 0xF y st).registerFile 0xF =
      if 256 ≤ st.registerFile 0xF + st.registerFile y then 1 else 0) ∧
    ((Chip8.sub_reg 0xF y st).registerFile 0xF =
      if st.registerFile y ≤ st.registerFile 0xF then 1 else 0) ∧
    ((Chip8.subn_reg 0xF y st).registerFile 0xF =
      if st.registerFile 0xF ≤ st.registerFile y then 1 else 0) ∧
    ((Chip8.shr_reg 0xF y st).registerFile 0xF = st.registerFile y % 2) ∧
    ((Chip8.shl_reg 0xF y st).registerFile 0xF = st.registerFile y / 128) := by
  have h7 : st.registerFile y >>> 7 = st.registerFile y / 128 := Nat.shiftRight_eq_div_pow _ 7
  refine ⟨?_, ?_, ?_, ?_, ?_⟩ <;>
    simp [Chip8.add_reg, Chip8.sub_reg, Chip8.subn_reg, Chip8.shr_reg, Chip8.shl_reg,
      upd, Nat.and_one_is_mod, h7] <;>
    (try split) <;> (try split) <;> omega

/-- Witness for C10 at `y = 2` with `V0xF = 200`, `V2 = 100` (carry case). -/
theorem c10_flag_overwrites_result_witness :
    ((Chip8.add_reg 0xF 2 c10Ex).registerFile 0xF =
      if 256 ≤ c10Ex.registerFile 0xF + c10Ex.registerFile 2 then 1 else 0) ∧
    ((Chip8.shl_reg 0xF 2 c10Ex).registerFile 0xF = c10Ex.registerFile 2 / 128) :=
  ⟨(c10_flag_overwrites_result c10Ex 2 (by decide)).1,
    (c10_flag_overwrites_result c10Ex 2 (by decide)).2.2.2.2⟩


/-- While the key-wait latch is in `Waiting` or `Pressed`, an instruction
cycle whose fetched word is the await-key instruction leaves the machine
state exactly unchanged (shared between the stall and resolution results). -/
theorem await_key_cycle_stalls (r : Nat) (st : App) (k : Nat)
    (hpc : st.pc + 2 ≤ 4096)
    (hop : (st.memory st.pc * 256 + st.memory (st.pc + 1)) >>> 12 = 0xF)
    (him : (st.memory st.pc * 256 + st.memory (st.pc + 1)) &&& 0x00FF = 0x0A)
    (hw : st.key_wait = KeyWaitState.waiting ∨ st.key_wait = KeyWaitState.pressed k) :
    App.instruction_cycle r st = some st := by
  rcases hw with h | h <;>
    simp [App.instruction_cycle, if_pos hpc, hop, him, App.await_key, h] <;>
    exact ⟨by omega, by rw [← h]⟩

/-- Claim C1: while the key-wait is unresolved (latch `Waiting` or
`Pressed`), every instruction cycle executing the await-key instruction
re-executes it — the fetch increment of `pc` is rolled back by 2 and no
other machine state is mutated, so the cycle returns the state unchanged. -/
theorem c1_await_key_stall (r : Nat) (st : App) (k : Nat)
    (hpc : st.pc + 2 ≤ 4096)
    (hop : (st.memory st.pc * 256 + st.memory (st.pc + 1)) >>> 12 = 0xF)
    (him : (st.memory st.pc * 256 + st.memory (st.pc + 1)) &&& 0x00FF = 0x0A)
    (hw : st.key_wait = KeyWaitState.waiting ∨ st.key_wait = KeyWaitState.pressed k) :
    App.instruction_cycle r st = some st :=
  await_key_cycle_stalls r st k hpc hop him hw

/-- Witness for C1: the concrete state `c1Ex` is returned unchanged. -/
theorem c1_await_key_stall_witness : App.instruction_cycle 0 c1Ex = some c1Ex :=
  c1_await_key_stall 0 c1Ex 0 (by decide) (by decide) (by decide) (Or.inl rfl)

/-- Claim C2: with the await-key instruction (target register `x`) latched
in `Waiting` at `pc`: a press of key `k` moves the latch to `Pressed(k)`
(a release moves nothing); a release of a key other than `k` leaves
`Pressed(k)`; the poll between press and release still stalls; the release
of `k` yields `Released(k)`; and the next poll then resolves — writing `k`
into `Vx`, advancing `pc` by exactly 2 past the await instruction, and
returning the latch to `Idle`. -/
theorem c2_key_wait_resolution (r x k : Nat) (st : App) (hx : x < 16) (hk : k < 16)
    (hb0 : st.memory st.pc = 0xF0 + x)
    (hb1 : st.memory (st.pc + 1) = 0x0A)
    (hpc : st.pc + 2 ≤ 4096)
    (hw : st.key_wait = KeyWaitState.waiting) :
    (App.handle_key k true st).key_wait = KeyWaitState.pressed k ∧
    (∀ k2, (App.handle_key k2 false st).key_wait = KeyWaitState.waiting) ∧
    (∀ k2, k2 ≠ k →
      (App.handle_key k2 false (App.handle_key k true st)).key_wait = KeyWaitState.pressed k) ∧
    App.instruction_cycle r (App.handle_key k true st) = some (App.handle_key k true st) ∧
    (App.handle_key k false (App.handle_key k true st)).key_wait = KeyWaitState.released k ∧
    ∃ st3, App.instruction_cycle r (App.handle_key k false (App.handle_key k true st)) = some st3 ∧
      st3.pc = st.pc + 2 ∧ st3.v_file x = k ∧ st3.key_wait = KeyWaitState.idle := by
  have hop2 : ((0xF0 + x) * 256 + 0x0A) >>> 12 = 0xF := by interval_cases x <;> decide
  have him2 : ((0xF0 + x) * 256 + 0x0A) &&& 0x00FF = 0x0A := by interval_cases x <;> decide
  have hxf2 : (((0xF0 + x) * 256 + 0x0A) &&& 0x0F00) >>> 8 = x := by interval_cases x <;> decide
  have h1 : App.handle_key k true st =
      { st with keypad := updB st.keypad k true, key_wait := KeyWaitState.pressed k } := by
    simp [App.handle_key, hw]
  have h2 : App.handle_key k false (App.handle_key k true st) =
      { st with keypad := updB (updB st.keypad k true) k false, key_wait := KeyWaitState.released k } := by
    rw [h1]; simp [App.handle_key]
  refine ⟨?_, ?_, ?_, ?_, ?_, ?_⟩
  · rw [h1]
  · intro k2; simp [App.handle_key, hw]
  · intro k2 hne; rw [h1]; simp [App.handle_key, hne]
  · exact await_key_cycle_stalls r _ k (by rw [h1]; simpa using hpc)
      (by rw [h1]; simpa [hb0, hb1] using hop2)
      (by rw [h1]; simpa [hb0, hb1] using him2)
      (Or.inr (by rw [h1]))
  · rw [h2]
  · rw [h2]
    simp only [App.instruction_cycle]
    simp only [hb0, hb1, hop2, him2, hxf2]
    norm_num
    simp [App.await_key, upd, hpc]

/-- Witness for C2 at `x = k = 5` on `c2Ex`, with `k2 = 3` for the
non-matching release. -/
theorem c2_key_wait_resolution_witness :
    (App.handle_key 5 true c2Ex).key_wait = KeyWaitState.pressed 5 ∧
    (App.handle_key 3 false (App.handle_key 5 true c2Ex)).key_wait = KeyWaitState.pressed 5 ∧
    ∃ st3, App.instruction_cycle 0 (App.handle_key 5 false (App.handle_key 5 true c2Ex)) = some st3 ∧
      st3.pc = c2Ex.pc + 2 ∧ st3.v_file 5 = 5 ∧ st3.key_wait = KeyWaitState.idle := by
  obtain ⟨h1, h2, h3, h4, h5, h6⟩ :=
    c2_key_wait_resolution 0 5 5 c2Ex (by decide) (by decide) (by decide) (by decide)
      (by decide) rfl
  exact ⟨h1, h3 3 (by decide), h6⟩


/-- `copyTo` writes `src (sb + j)` at destination address `db + j`. -/
theorem copyTo_get (dst src : Nat → Nat) (db sb : Nat) :
    ∀ n j, j < n → copyTo dst src db sb n (db + j) = src (sb + j) := by
  intro n
  induction n with
  | zero => omega
  | succ m ih =>
    intro j hj
    by_cases h : j = m
    · subst h; simp [copyTo, upd]
    · have hlt : j < m := by omega
      have hne : ¬ (db + j = db + m) := by omega
      simp only [copyTo, upd, if_neg hne]
      exact ih j hlt

/-- `copyTo` leaves addresses outside the destination range untouched. -/
theorem copyTo_ne (dst src : Nat → Nat) (db sb : Nat) :
    ∀ n a, (∀ j, j < n → a ≠ db + j) → copyTo dst src db sb n a = dst a := by
  intro n
  induction n with
  | zero => intro a ha; rfl
  | succ m ih =>
    intro a ha
    have hne : ¬ (a = db + m) := ha m (by omega)
    simp only [copyTo, upd, if_neg hne]
    exact ih a (fun j hj => ha j (by omega))

/-- Claim C8: an instruction whose top-level opcode or secondary selector is
unrecognized does not abort the cycle: it completes as a no-op advance —
`pc` has moved by exactly 2 and the register file, memory, stack, index
register, timers, keyboard state and draw queue are unchanged (the
diagnostic is only logged, outside machine state). -/
theorem c8_unrecognized_no_op (r : Nat) (st : Chip8)
    (hpc : st.pc + 2 ≤ 4096)
    (hun : (InstructionDecode.decode (Chip8.fetchWord st)).unrecognized) :
    ∃ st2, Chip8.instruction_cycle r st = some st2 ∧
      st2.pc = st.pc + 2 ∧
      st2.registerFile = st.registerFile ∧ st2.memory = st.memory ∧
      st2.stack = st.stack ∧ st2.indirect = st.indirect ∧
      st2.delayTimer = st.delayTimer ∧ st2.soundTimer = st.soundTimer ∧
      st2.keyboard = st.keyboard ∧ st2.drawQueue = st.drawQueue := by
  simp only [Chip8.instruction_cycle, Chip8.fetch, if_pos hpc, Chip8.decode, Chip8.fetchWord] at *
  rcases hun with ⟨h1, h2, h3⟩ | ⟨h1, h2⟩ | ⟨h1, h2, h3⟩ | ⟨h1, h2⟩ | h1 <;>
    simp_all [Chip8.execute]

/-- Witness for C8 at the unknown ALU instruction `0x8008` on `c8Ex`. -/
theorem c8_unrecognized_no_op_witness :
    ∃ st2, Chip8.instruction_cycle 0 c8Ex = some st2 ∧
      st2.pc = c8Ex.pc + 2 ∧
      st2.registerFile = c8Ex.registerFile ∧ st2.memory = c8Ex.memory ∧
      st2.stack = c8Ex.stack ∧ st2.indirect = c8Ex.indirect ∧
      st2.delayTimer = c8Ex.delayTimer ∧ st2.soundTimer = c8Ex.soundTimer ∧
      st2.keyboard = c8Ex.keyboard ∧ st2.drawQueue = c8Ex.drawQueue :=
  c8_unrecognized_no_op 0 c8Ex (by decide)
    (by unfold InstructionDecode.unrecognized; decide)

/-- Counterexample for C3 as stated: at `c3Cex` (draw with `V0 = 64`) the
enqueued job's origin column is the raw register value 64, not
`V0 mod 64 = 0` as the claim asserts. -/
theorem c3_draw_origin_counterexample :
    (Chip8.instruction_cycle 0 c3Cex).map Chip8.drawQueue =
      some [DrawJob.draw ⟨64, 0, [0, 0]⟩] ∧ (64 : Nat) % 64 ≠ 64 :=
  ⟨rfl, by decide⟩

/-- Claim C3 amended: a draw-sprite cycle whose `n`-byte read at
`[indirect, indirect+n)` is in bounds appends exactly one `Draw` job whose
origin is the raw `(Vx, Vy)` pair (not reduced mod 64/32 — the renderer is
responsible for the frame geometry) and whose row buffer is those `n`
bytes; the register file (in particular `V0xF`) is untouched, the collision
flag being written only by `set_collision`. -/
theorem c3_draw_enqueue_raw_origin (r : Nat) (st : Chip8)
    (hpc : st.pc + 2 ≤ 4096)
    (hop : (InstructionDecode.decode (Chip8.fetchWord st)).opcode = 0xD)
    (hbound : st.indirect + (InstructionDecode.decode (Chip8.fetchWord st)).funct ≤ 4096) :
    ∃ st2, Chip8.instruction_cycle r st = some st2 ∧
      st2.drawQueue = st.drawQueue ++
        [DrawJob.draw ⟨st.registerFile (InstructionDecode.decode (Chip8.fetchWord st)).x,
          st.registerFile (InstructionDecode.decode (Chip8.fetchWord st)).y,
          readBytes st.memory st.indirect (InstructionDecode.decode (Chip8.fetchWord st)).funct⟩] ∧
      st2.registerFile = st.registerFile ∧
      (∀ (b : Bool) (s : Chip8), (Chip8.set_collision b s).registerFile 0xF =
        if b then 1 else 0) := by
  simp only [Chip8.instruction_cycle, Chip8.fetch, if_pos hpc, Chip8.decode,
    Chip8.fetchWord] at *
  simp_all [Chip8.execute, Chip8.draw_sprite, if_pos hbound, Chip8.set_collision, upd]

/-- Witness for the amended C3 at `c3Cex`. -/
theorem c3_draw_enqueue_raw_origin_witness :
    ∃ st2, Chip8.instruction_cycle 0 c3Cex = some st2 ∧
      st2.drawQueue = c3Cex.drawQueue ++
        [DrawJob.draw ⟨c3Cex.registerFile (InstructionDecode.decode (Chip8.fetchWord c3Cex)).x,
          c3Cex.registerFile (InstructionDecode.decode (Chip8.fetchWord c3Cex)).y,
          readBytes c3Cex.memory c3Cex.indirect
            (InstructionDecode.decode (Chip8.fetchWord c3Cex)).funct⟩] ∧
      st2.registerFile = c3Cex.registerFile ∧
      (∀ (b : Bool) (s : Chip8), (Chip8.set_collision b s).registerFile 0xF =
        if b then 1 else 0) :=
  c3_draw_enqueue_raw_origin 0 c3Cex (by decide) (by decide) (by decide)

/-- Counterexample for C9 as stated: at start address 4096 (a value the
16-bit index register can hold) `store_block` panics instead of copying. -/
theorem c9_store_block_oob_counterexample : Chip8.store_block 0 c9Cex = none := rfl

/-- Claim C9 amended: for `x ≤ 0xF` and any start address whose block
`[a, a+x+1)` lies inside the 4096-byte memory, store-block copies
`V0..=Vx` there, load-block copies the block back into `V0..=Vx`, each
advances the index register by exactly `x+1`, and the store-then-load
composition (index register reset to the start address in between)
restores `V0..=Vx`. -/
theorem c9_store_load_block_roundtrip (st : Chip8) (x : Nat) (hx : x < 16)
    (hb : st.indirect + x + 1 ≤ 4096) :
    ∃ st1 st2, Chip8.store_block x st = some st1 ∧
      Chip8.load_block x { st1 with indirect := st.indirect } = some st2 ∧
      st1.indirect = st.indirect + x + 1 ∧
      st1.registerFile = st.registerFile ∧
      (∀ j, j ≤ x → st1.memory (st.indirect + j) = st.registerFile j) ∧
      (∀ a, (∀ j, j ≤ x → a ≠ st.indirect + j) → st1.memory a = st.memory a) ∧
      st2.indirect = st.indirect + x + 1 ∧
      st2.memory = st1.memory ∧
      (∀ j, j ≤ x → st2.registerFile j = st1.memory (st.indirect + j)) ∧
      (∀ j, j ≤ x → st2.registerFile j = st.registerFile j) := by
  have hcond : x + 1 ≤ 16 ∧ st.indirect + x + 1 ≤ 4096 := ⟨by omega, by omega⟩
  have hs : Chip8.store_block x st =
      some { st with memory := copyTo st.memory st.registerFile st.indirect 0 (x + 1), indirect := st.indirect + x + 1 } := by
    simp only [Chip8.store_block, if_pos hcond]
  have hl : Chip8.load_block x
      { st with memory := copyTo st.memory st.registerFile st.indirect 0 (x + 1) } =
      some { st with registerFile := copyTo st.registerFile (copyTo st.memory st.registerFile st.indirect 0 (x + 1)) 0 st.indirect (x + 1), memory := copyTo st.memory st.registerFile st.indirect 0 (x + 1), indirect := st.indirect + x + 1 } := by
    simp only [Chip8.load_block, if_pos hcond]
  refine ⟨_, _, hs, hl, rfl, rfl, ?_, ?_, rfl, rfl, ?_, ?_⟩
  · intro j hj
    have := copyTo_get st.memory st.registerFile st.indirect 0 (x + 1) j (by omega)
    simpa using this
  · intro a ha
    exact copyTo_ne st.memory st.registerFile st.indirect 0 (x + 1) a
      (fun j hj => ha j (by omega))
  · intro j hj
    have := copyTo_get st.registerFile
      (copyTo st.memory st.registerFile st.indirect 0 (x + 1)) 0 st.indirect (x + 1) j (by omega)
    simpa using this
  · intro j hj
    have h1 := copyTo_get st.registerFile
      (copyTo st.memory st.registerFile st.indirect 0 (x + 1)) 0 st.indirect (x + 1) j (by omega)
    have h2 := copyTo_get st.memory st.registerFile st.indirect 0 (x + 1) j (by omega)
    simp only [Nat.zero_add] at h1 h2
    simp [h1, h2]

/-- Witness for the amended C9 at `c9Ex` with `x = 3`. -/
theorem c9_store_load_block_roundtrip_witness :
    ∃ st1 st2, Chip8.store_block 3 c9Ex = some st1 ∧
      Chip8.load_block 3 { st1 with indirect := c9Ex.indirect } = some st2 ∧
      st1.indirect = c9Ex.indirect + 3 + 1 ∧
      st1.registerFile = c9Ex.registerFile ∧
      (∀ j, j ≤ 3 → st1.memory (c9Ex.indirect + j) = c9Ex.registerFile j) ∧
      (∀ a, (∀ j, j ≤ 3 → a ≠ c9Ex.indirect + j) → st1.memory a = c9Ex.memory a) ∧
      st2.indirect = c9Ex.indirect + 3 + 1 ∧
      st2.memory = st1.memory ∧
      (∀ j, j ≤ 3 → st2.registerFile j = st1.memory (c9Ex.indirect + j)) ∧
      (∀ j, j ≤ 3 → st2.registerFile j = c9Ex.registerFile j) :=
  c9_store_load_block_roundtrip c9Ex 3 (by decide) (by decide)


/-- The x field of a decoded instruction is a register index below 16. -/
theorem decode_x_lt (w : Nat) : (InstructionDecode.decode w).x < 16 := by
  have h1 : w &&& 0x0F00 ≤ 0x0F00 := Nat.and_le_right
  have h2 : (w &&& 0x0F00) >>> 8 = (w &&& 0x0F00) / 256 := Nat.shiftRight_eq_div_pow _ 8
  simp only [InstructionDecode.decode, h2]
  omega

set_option maxHeartbeats 1000000 in
/-- `Chip8::execute` aborts exactly on the conditions of `Chip8.execAborts`. -/
theorem execute_none_iff (r : Nat) (st : Chip8) (hx : st.instr.x < 16) :
    Chip8.execute r st = none ↔ Chip8.execAborts st := by
  unfold Chip8.execute Chip8.execAborts
  generalize st.instr.opcode = o
  rcases Nat.lt_or_ge o 16 with ho | ho
  · interval_cases o <;> simp only [reduceIte, Nat.reduceEqDiff]
    · by_cases hA : st.instr.address = 0x0E0 <;> by_cases hB : st.instr.address = 0x0EE <;>
        cases hstk : st.stack <;> simp_all [Chip8.ret]
    · simp
    · simp
    · simp
    · simp
    · simp
    · simp
    · simp
    · split_ifs <;> simp
    · simp
    · simp
    · simp
    · simp
    · simp [Chip8.draw_sprite]
    · split_ifs <;> simp
    · split_ifs <;> (try simp_all [Chip8.store_bcd, Chip8.store_block, Chip8.load_block]) <;>
        (try omega)
  · simp only [if_neg (show ¬ o = 0 by omega), if_neg (show ¬ o = 1 by omega), if_neg (show ¬ o = 2 by omega), if_neg (show ¬ o = 3 by omega), if_neg (show ¬ o = 4 by omega), if_neg (show ¬ o = 5 by omega), if_neg (show ¬ o = 6 by omega), if_neg (show ¬ o = 7 by omega), if_neg (show ¬ o = 8 by omega), if_neg (show ¬ o = 9 by omega), if_neg (show ¬ o = 10 by omega), if_neg (show ¬ o = 11 by omega), if_neg (show ¬ o = 12 by omega), if_neg (show ¬ o = 13 by omega), if_neg (show ¬ o = 14 by omega), if_neg (show ¬ o = 15 by omega)]
    refine iff_of_false (by simp) ?_
    rintro (⟨h, h2⟩ | ⟨h, h2⟩ | ⟨h, h2⟩ | ⟨h, h2⟩) <;> omega

/-- Counterexample for C4 as stated: at `c4Cex` the cycle aborts although the
fetch is in bounds, the instruction is a draw (not a return), and the stack
is not empty — a third abort situation beyond the two the claim lists. -/
theorem c4_abort_beyond_claimed_counterexample :
    Chip8.instruction_cycle 0 c4Cex = none ∧
    c4Cex.pc + 2 ≤ 4096 ∧
    (InstructionDecode.decode (Chip8.fetchWord c4Cex)).opcode = 0xD ∧
    c4Cex.stack ≠ [] :=
  ⟨rfl, by decide, by decide, by decide⟩

/-- Claim C4 amended: the instruction cycle aborts fatally exactly when the
fetch runs past the 4096-byte memory (`pc + 1` beyond the last address), or
a return executes with an empty call stack, or a draw-sprite / BCD /
register-block instruction accesses memory past its end through the index
register; every other state and instruction — in particular every in-bounds
access and every recognized or unrecognized opcode — completes. -/
theorem c4_fatal_abort_characterization (r : Nat) (st : Chip8) :
    Chip8.instruction_cycle r st = none ↔
      (4096 < st.pc + 2 ∨
        (st.pc + 2 ≤ 4096 ∧
          (((InstructionDecode.decode (Chip8.fetchWord st)).opcode = 0x0 ∧
              (InstructionDecode.decode (Chip8.fetchWord st)).address = 0x0EE ∧
              st.stack = []) ∨
            ((InstructionDecode.decode (Chip8.fetchWord st)).opcode = 0xD ∧
              4096 < st.indirect + (InstructionDecode.decode (Chip8.fetchWord st)).funct) ∨
            ((InstructionDecode.decode (Chip8.fetchWord st)).opcode = 0xF ∧
              (InstructionDecode.decode (Chip8.fetchWord st)).immediate = 0x33 ∧
              4096 < st.indirect + 3) ∨
            ((InstructionDecode.decode (Chip8.fetchWord st)).opcode = 0xF ∧
              ((InstructionDecode.decode (Chip8.fetchWord st)).immediate = 0x55 ∨
                (InstructionDecode.decode (Chip8.fetchWord st)).immediate = 0x65) ∧
              4096 < st.indirect + (InstructionDecode.decode (Chip8.fetchWord st)).x + 1)))) := by
  by_cases hpc : st.pc + 2 ≤ 4096
  · have hfetch : Chip8.fetch st =
        some { st with ir := Chip8.fetchWord st, pc := st.pc + 2 } := by
      simp [Chip8.fetch, hpc, Chip8.fetchWord]
    have hnl : ¬ (4096 < st.pc + 2) := by omega
    simp only [Chip8.instruction_cycle, hfetch, Chip8.decode]
    rw [execute_none_iff r _ (by simpa using decode_x_lt (Chip8.fetchWord st))]
    simp [Chip8.execAborts, hpc, hnl]
  · have hfetch : Chip8.fetch st = none := by simp [Chip8.fetch, hpc]
    have hl : 4096 < st.pc + 2 := by omega
    simp [Chip8.instruction_cycle, hfetch, hl]
